import Mathlib

/-!
Verification of the retrieval core of the `sro_bot` repository
(`backend/rag.py`, `backend/app.py`) against its natural-language
specification.  Corpus text and chunks are modelled as `List Char`;
embedding vectors as `List Int` (exact inner products stand in for
float32 inner products — the claims under study concern ordering,
lengths and state, not rounding).  Fallible external collaborators
(file reads, the sentence-transformers model, faiss construction) are
modelled with `Except`.
-/

/-- A corpus document / text fragment, as a character list. -/
abbrev Doc := List Char

/-- Python slice `t[s:e]` for `s : Nat` and a possibly negative `e`
(Python interprets a negative end index as `len t + e`).  In
`load_chunks` the start is always non-negative, so only the end index
needs the signed treatment. -/
def pySlice (t : Doc) (s : Nat) (e : Int) : Doc :=
  let e' : Int := if e < 0 then max ((t.length : Int) + e) 0 else min e (t.length : Int)
  (t.take e'.toNat).drop s

/-- The loop increment of `load_chunks`: `start += max(1, chunk_size - overlap)`.
Always at least 1, so the loop terminates for every parameter pair. -/
def chunkStep (chunk_size overlap : Int) : Nat :=
  (max 1 (chunk_size - overlap)).toNat

/-- The chunking loop of `load_chunks` (rag.py lines 9–18), starting from
offset `start`:
while `start < len(text)`, emit `text[start : min(start+chunk_size, len(text))]`
and advance `start` by `max(1, chunk_size - overlap)`. -/
def chunkFrom (text : Doc) (chunk_size overlap : Int) (start : Nat) : List Doc :=
  if _h : start < text.length then
    pySlice text start (min ((start : Int) + chunk_size) (text.length : Int)) ::
      chunkFrom text chunk_size overlap (start + chunkStep chunk_size overlap)
  else []
termination_by text.length - start
decreasing_by
  have h1 : 1 ≤ chunkStep chunk_size overlap := by
    unfold chunkStep; omega
  omega

/-- The pure part of `load_chunks`: chunk the whole text from offset 0.
(The file read that precedes it in `load_chunks` is modelled as an
external collaborator in the reload model below.) -/
def chunkText (text : Doc) (chunk_size overlap : Int) : List Doc :=
  chunkFrom text chunk_size overlap 0

/-- The (start, end) offset spans of the chunks emitted by `chunkFrom`,
mirroring its recursion: span `(start, min (start+chunk_size) len)`. -/
def chunkSpansFrom (len : Nat) (chunk_size overlap : Int) (start : Nat) : List (Nat × Nat) :=
  if _h : start < len then
    (start, (min ((start : Int) + chunk_size) (len : Int)).toNat) ::
      chunkSpansFrom len chunk_size overlap (start + chunkStep chunk_size overlap)
  else []
termination_by len - start
decreasing_by
  have h1 : 1 ≤ chunkStep chunk_size overlap := by
    unfold chunkStep; omega
  omega

/-- An embedding vector (one row of the float32 embedding matrix),
with exact integer components standing in for the floats. -/
abbrev Vec := List Int

/-- A loaded sentence-transformers model, identified by its name
(`get_model` in rag.py wraps `SentenceTransformer(name)`). -/
structure Model where
  name : String
deriving DecidableEq

/-- The external collaborators of the backend, each fallible:
the prompt file read (`load_prompt_file` swallows its errors, so it is an
`Option`), the corpus file read (the `open`/`read` inside `load_chunks`),
model construction (`SentenceTransformer(name)` inside `get_model`) and
the model encode call (`model.encode` inside `embed_texts`). -/
structure Collabs where
  readPrompt : Option String
  readCorpus : String → Except String Doc
  getModel : String → Except String Model
  encode : Model → List Doc → Except String (List Vec)

/-- A Python-level failure as it reaches the HTTP caller: either an
`HTTPException` raised deliberately, or an uncaught exception
(which FastAPI surfaces as a 500). -/
inductive PyErr where
  | httpError (code : Nat) (detail : String)
  | exc (msg : String)
deriving DecidableEq

/-- The built-in default prompt that `load_prompt_file` falls back to
(the literal Russian text in app.py, abbreviated here). -/
def fallbackPrompt : String := "(default prompt)"

/-- `load_prompt_file` (app.py lines 23–31): return the stripped file
contents when the read succeeds and is non-empty, else the fallback.
`contents` is the stripped read result, `none` when the read raised. -/
def load_prompt_file (contents : Option String) : String :=
  match contents with
  | some txt => if txt = "" then fallbackPrompt else txt
  | none => fallbackPrompt

/-- The faiss `IndexFlatIP` over the embedding rows: a flat store of the
vectors in insertion order.  faiss is an external dependency; its flat
index is modelled from spec section 4.3 (exact exhaustive scan). -/
structure Index where
  vectors : List Vec
deriving DecidableEq

/-- `build_index` (rag.py lines 27–32): `dim = embeddings.shape[1]`
raises `IndexError` on a zero-row array (the result of encoding an empty
chunk list), else faiss stores the rows in order. -/
def build_index (embeddings : List Vec) : Except String Index :=
  if embeddings.isEmpty then .error "IndexError: tuple index out of range"
  else .ok ⟨embeddings⟩

/-- Inner product of two vectors (the similarity metric of `IndexFlatIP`). -/
def dot (a b : Vec) : Int := (List.zipWith (fun x y => x * y) a b).sum

/-- The score of every stored vector against the query, paired with its
stored position: the exhaustive comparison a flat index performs. -/
def scored (idx : Index) (q : Vec) : List (Int × Nat) :=
  (List.range idx.vectors.length).map (fun i => (dot q (idx.vectors.getD i []), i))

/-- Result order of the flat search: higher score first, ties by lower
stored position (spec section 4.3). -/
def scoreOrder (a b : Int × Nat) : Bool :=
  decide (b.1 < a.1 ∨ (a.1 = b.1 ∧ a.2 ≤ b.2))

/-- The valid (non-sentinel) rows of a flat search: the `min k n` best
scored positions in `scoreOrder`.  Modelled from spec section 4.3;
faiss itself is an external dependency not present in the repository. -/
def searchValid (idx : Index) (q : Vec) (k : Nat) : List (Int × Nat) :=
  ((scored idx q).mergeSort scoreOrder).take k

/-- `search` (rag.py lines 41–43) for a single query row: the `(D, I)`
row pair returned by `index.search`.  faiss pads the row to length `k`
with sentinel label `-1` when fewer than `k` vectors are stored. -/
def search (idx : Index) (q : Vec) (k : Nat) : List Int × List Int :=
  let valid := searchValid idx q k
  (valid.map (fun p => p.1) ++ List.replicate (k - valid.length) 0,
   valid.map (fun p => (p.2 : Int)) ++ List.replicate (k - valid.length) (-1))

/-- The module-level globals of app.py that make up the served state:
`MODEL`, `INDEX`, `CHUNKS`, `EMB`, `PROMPT_TEXT`.  `CHUNKS` starts as the
empty list (never `None`); the other three start as `None`. -/
structure ServerState where
  MODEL : Option Model
  INDEX : Option Index
  CHUNKS : List Doc
  EMB : Option (List Vec)
  PROMPT : String
deriving DecidableEq

/-- The initial module state of app.py before any reload. -/
def initState : ServerState :=
  { MODEL := none, INDEX := none, CHUNKS := [], EMB := none, PROMPT := "" }

/-- The environment-variable configuration consumed by the backend:
`KNOWLEDGE_PATH`, `EMBEDDING_MODEL`, `CHUNK_SIZE`, `CHUNK_OVERLAP`,
`TOP_K` (already parsed to their Python types). -/
structure Env where
  knowledge_path : String
  embedding_model : String
  chunk_size : Int
  overlap : Int
  top_k : Int

/-- `reload_state` (app.py lines 142–158): sequentially reassigns the
globals `PROMPT_TEXT`, `CHUNKS`, `MODEL`, `EMB`, `INDEX`, in this order;
an exception raised by a step propagates, leaving the assignments made so
far in place.  On success returns the chunk count. -/
def reload_state (c : Collabs) (env : Env) (s : ServerState) :
    Except PyErr Nat × ServerState :=
  let s0 := { s with PROMPT := load_prompt_file c.readPrompt }
  match c.readCorpus env.knowledge_path with
  | .error e => (.error (.exc e), s0)
  | .ok text =>
    let chunks := chunkText text env.chunk_size env.overlap
    let s1 := { s0 with CHUNKS := chunks }
    match c.getModel env.embedding_model with
    | .error e => (.error (.exc e), s1)
    | .ok m =>
      let s2 := { s1 with MODEL := some m }
      match c.encode m chunks with
      | .error e => (.error (.exc e), s2)
      | .ok emb =>
        let s3 := { s2 with EMB := some emb }
        match build_index emb with
        | .error e => (.error (.exc e), s3)
        | .ok idx => (.ok chunks.length, { s3 with INDEX := some idx })

/-- The body of an `/ask` request: the question text and the optional
`top_k` (the out-of-scope `chat_id` is omitted). -/
structure AskRequest where
  question : Doc
  top_k : Option Int

/-- `int(req.top_k or os.getenv("TOP_K", 4))`: Python `or` takes the
configured default when `top_k` is absent or falsy (i.e. `0`). -/
def effective_top_k (req_top_k : Option Int) (env_top_k : Int) : Int :=
  match req_top_k with
  | none => env_top_k
  | some v => if v = 0 then env_top_k else v

/-- `[CHUNKS[i] for i in I[0] if i >= 0]` (app.py line 168): keep the
non-sentinel positions and look each up in `CHUNKS`; an out-of-range
position raises `IndexError`. -/
def selectChunks (chunks : List Doc) (row : List Int) : Except PyErr (List Doc) :=
  (row.filter (fun i => decide (0 ≤ i))).mapM (fun i =>
    match chunks.get? i.toNat with
    | some c => Except.ok c
    | none => Except.error (PyErr.exc "IndexError: list index out of range"))

/-- The outcome of one `/ask` call: the result (the selected context
passages, or the error), the module state afterwards, and the list of
calls made to the embedding model (each call is the list of texts
passed to `model.encode`).  The LLM call and the log insert that follow
retrieval are out-of-scope collaborators (spec section 1) and are not
modelled. -/
structure AskResult where
  out : Except PyErr (List Doc)
  state : ServerState
  embedCalls : List (List Doc)

/-- `ask` (app.py lines 161–174): `_ensure_ready` (503 when `MODEL`,
`INDEX` or `EMB` is still `None`; `CHUNKS` is a list and never `None`),
then resolve `top_k`, embed the question, search the index with the
single query row, and map the returned positions back to chunks,
dropping sentinels.  No global is assigned anywhere on this path. -/
def ask (c : Collabs) (env : Env) (s : ServerState) (req : AskRequest) : AskResult :=
  match s.MODEL, s.INDEX, s.EMB with
  | some m, some idx, some _ =>
    match c.encode m [req.question] with
    | .error e => { out := .error (.exc e), state := s, embedCalls := [[req.question]] }
    | .ok qemb =>
      match selectChunks s.CHUNKS
          (search idx (qemb.headD []) (effective_top_k req.top_k env.top_k).toNat).2 with
      | .error e => { out := .error e, state := s, embedCalls := [[req.question]] }
      | .ok sel => { out := .ok sel, state := s, embedCalls := [[req.question]] }
  | _, _, _ =>
    { out := .error (.httpError 503 "Model or index not initialized. Call /reload first.")
      state := s, embedCalls := [] }

/-- The strict result order of a flat search, as a relation: strictly
higher score first, ties by strictly lower stored position. -/
def rank (a b : Int × Nat) : Prop :=
  b.1 < a.1 ∨ (a.1 = b.1 ∧ a.2 < b.2)

/-- States reachable from the initial module state while no reload has
yet succeeded: any number of failed reloads (under arbitrary
environments and external-collaborator behaviours) and `/ask` calls. -/
inductive PreReload : ServerState → Prop where
  | init : PreReload initState
  | reload_failed (c : Collabs) (env : Env) (s s2 : ServerState) (e : PyErr) :
      PreReload s → reload_state c env s = (.error e, s2) → PreReload s2
  | ask_step (c : Collabs) (env : Env) (s : ServerState) (req : AskRequest) :
      PreReload s → PreReload (ask c env s req).state

/-- A deterministic sample embedder used to instantiate the external
model in witnesses: every text maps to the vector (length, 1). -/
def sampleVec (d : Doc) : Vec := [(d.length : Int), 1]

/-- Sample external collaborators where every call succeeds: the corpus
file holds "ABCDEFGHIJ" and the embedder is `sampleVec`. -/
def sampleCollabs : Collabs :=
  { readPrompt := some "be brief"
  , readCorpus := fun _ => .ok "ABCDEFGHIJ".toList
  , getModel := fun n => .ok ⟨n⟩
  , encode := fun _ texts => .ok (texts.map sampleVec) }

/-- Sample collaborators whose embedding model is unreachable: the
encode call always fails, everything else behaves as `sampleCollabs`. -/
def failingEncodeCollabs : Collabs :=
  { sampleCollabs with encode := fun _ _ => .error "EmbeddingUnavailable" }

/-- A sample environment: the spec scenario parameters
`chunk_size=4, overlap=2`, default `top_k=4`. -/
def sampleEnv : Env :=
  { knowledge_path := "knowledge/knowledge.md"
  , embedding_model := "intfloat/multilingual-e5-base"
  , chunk_size := 4, overlap := 2, top_k := 4 }

/-- An environment whose chunker parameters violate the spec
preconditions: `overlap = 3 ≥ chunk_size = 2`. -/
def badParamEnv : Env :=
  { knowledge_path := "knowledge/knowledge.md"
  , embedding_model := "intfloat/multilingual-e5-base"
  , chunk_size := 2, overlap := 3, top_k := 4 }

/-- Sample collaborators over the two-character corpus "AB". -/
def tinyCollabs : Collabs :=
  { sampleCollabs with readCorpus := fun _ => .ok "AB".toList }

/-- A concrete fully-populated server state, standing for the state
after some earlier successful reload of the one-chunk corpus "OLD". -/
def oldState : ServerState :=
  { MODEL := some ⟨"old-model"⟩
  , INDEX := some ⟨[[3, 1]]⟩
  , CHUNKS := ["OLD".toList]
  , EMB := some [[3, 1]]
  , PROMPT := "old prompt" }

/-- Decidable equality for `Except`, so concrete runs can be checked
with `decide`. -/
instance {ε α : Type} [DecidableEq ε] [DecidableEq α] : DecidableEq (Except ε α) :=
  fun a b =>
  match a, b with
  | .error e1, .error e2 =>
    if h : e1 = e2 then isTrue (by rw [h])
    else isFalse (by intro hc; injection hc; contradiction)
  | .error _, .ok _ => isFalse (by intro hc; exact Except.noConfusion hc)
  | .ok _, .error _ => isFalse (by intro hc; exact Except.noConfusion hc)
  | .ok v1, .ok v2 =>
    if h : v1 = v2 then isTrue (by rw [h])
    else isFalse (by intro hc; injection hc; contradiction)

/- ======================================================================
   Theorems
   ====================================================================== -/

theorem chunkStep_pos (cs ov : Int) : 1 ≤ chunkStep cs ov := by
  unfold chunkStep; omega

theorem chunkStep_le (cs ov : Int) (hcs : 0 < cs) (hov : 0 ≤ ov) :
    (chunkStep cs ov : Int) ≤ cs := by
  unfold chunkStep; omega

/-- `/ask` never assigns any module global: the state after is the state
before, in every branch (not ready, embed failure, lookup failure,
success). -/
theorem ask_state_eq (c : Collabs) (env : Env) (s : ServerState) (req : AskRequest) :
    (ask c env s req).state = s := by
  unfold ask
  repeat' split
  all_goals rfl

/-- `/ask` calls the embedding model either not at all (when rejected as
not ready) or exactly once, on the singleton batch of the question. -/
theorem ask_embedCalls (c : Collabs) (env : Env) (s : ServerState) (req : AskRequest) :
    (ask c env s req).embedCalls = [] ∨ (ask c env s req).embedCalls = [[req.question]] := by
  unfold ask
  repeat' split
  all_goals simp

/-- A failed reload never reaches the `INDEX` assignment: the stored
index is whatever it was before the attempt. -/
theorem reload_error_frame (c : Collabs) (env : Env) (s s2 : ServerState) (e : PyErr)
    (h : reload_state c env s = (.error e, s2)) :
    s2.INDEX = s.INDEX := by
  simp only [reload_state] at h
  repeat' split at h
  all_goals injection h with h1 h2
  all_goals try subst h2
  all_goals first | rfl | exact Except.noConfusion h1

/-- While no reload has succeeded, the `INDEX` global is still `None`. -/
theorem preReload_INDEX {s : ServerState} (h : PreReload s) : s.INDEX = none := by
  induction h with
  | init => rfl
  | reload_failed c env s s2 e _ hr ih => rw [reload_error_frame c env s s2 e hr, ih]
  | ask_step c env s req _ ih => rw [ask_state_eq c env s req, ih]

/-- C5: every retrieval call made before any successful reload has
installed an active CorpusState fails with NotReady (the 503
HTTPException of `_ensure_ready`) rather than returning a result, and
makes no embedding call. -/
theorem retrieval_before_success_not_ready (s : ServerState) (h : PreReload s)
    (c : Collabs) (env : Env) (req : AskRequest) :
    (ask c env s req).out =
      .error (.httpError 503 "Model or index not initialized. Call /reload first.")
    ∧ (ask c env s req).embedCalls = [] := by
  have hI := preReload_INDEX h
  have key : ask c env s req =
      { out := .error (.httpError 503 "Model or index not initialized. Call /reload first.")
        state := s, embedCalls := [] } := by
    unfold ask
    cases hM : s.MODEL with
    | none => rfl
    | some m => rw [hI]
  rw [key]
  exact ⟨rfl, rfl⟩

theorem retrieval_before_success_not_ready_witness :
    (ask sampleCollabs sampleEnv initState { question := "q".toList, top_k := some 4 }).out =
      .error (.httpError 503 "Model or index not initialized. Call /reload first.")
    ∧ (ask sampleCollabs sampleEnv initState
        { question := "q".toList, top_k := some 4 }).embedCalls = [] :=
  retrieval_before_success_not_ready initState PreReload.init sampleCollabs sampleEnv
    { question := "q".toList, top_k := some 4 }

/-- C10: a retrieval request with `topK = 0` behaves exactly as if
`topK` had not been supplied: Python `req.top_k or default` treats `0`
as absent, so the whole `/ask` outcome is identical and the configured
default is used. -/
theorem topk_zero_is_default (c : Collabs) (env : Env) (s : ServerState) (q : Doc) :
    ask c env s { question := q, top_k := some 0 } = ask c env s { question := q, top_k := none }
    ∧ effective_top_k (some 0) env.top_k = env.top_k := ⟨rfl, rfl⟩

/-- C1 (amended): a reload whose embedding step fails surfaces the error
to the caller, but leaves the globals mixed: `CHUNKS` (and `MODEL` and
the prompt) already hold the new generation while `EMB` and `INDEX`
still hold the previous one. -/
theorem reload_embed_failure (c : Collabs) (env : Env) (s : ServerState)
    (text : Doc) (m : Model) (e : String)
    (h1 : c.readCorpus env.knowledge_path = .ok text)
    (h2 : c.getModel env.embedding_model = .ok m)
    (h3 : c.encode m (chunkText text env.chunk_size env.overlap) = .error e) :
    reload_state c env s =
      (.error (.exc e),
       { s with PROMPT := load_prompt_file c.readPrompt,
                CHUNKS := chunkText text env.chunk_size env.overlap,
                MODEL := some m }) := by
  simp only [reload_state, h1, h2, h3]

theorem reload_embed_failure_witness :
    reload_state failingEncodeCollabs sampleEnv oldState =
      (.error (.exc "EmbeddingUnavailable"),
       { oldState with PROMPT := "be brief",
                       CHUNKS := chunkText "ABCDEFGHIJ".toList 4 2,
                       MODEL := some ⟨"intfloat/multilingual-e5-base"⟩ }) :=
  reload_embed_failure failingEncodeCollabs sampleEnv oldState "ABCDEFGHIJ".toList
    ⟨"intfloat/multilingual-e5-base"⟩ "EmbeddingUnavailable" rfl rfl rfl

unseal chunkFrom List.merge List.mergeSort in
/-- C1 (counterexample): starting from a fully populated state, a reload
that chunks successfully and then fails at the embedding model leaves
`CHUNKS` replaced while `INDEX` keeps the old generation — the prior
CorpusState is not left unchanged, the failure surfaces as a raw
exception, and the mixed state is visible to retrieval: a subsequent
`/ask` answers with a chunk of the new corpus selected by the old
index. -/
theorem reload_not_atomic_cex :
    (reload_state failingEncodeCollabs sampleEnv oldState).2.CHUNKS ≠ oldState.CHUNKS
    ∧ (reload_state failingEncodeCollabs sampleEnv oldState).2.INDEX = oldState.INDEX
    ∧ (reload_state failingEncodeCollabs sampleEnv oldState).1
        = .error (.exc "EmbeddingUnavailable")
    ∧ (ask sampleCollabs sampleEnv (reload_state failingEncodeCollabs sampleEnv oldState).2
        { question := "q".toList, top_k := some 1 }).out = .ok ["ABCD".toList] := by
  refine ⟨by decide, rfl, rfl, by decide⟩

unseal chunkFrom in
/-- C2 (counterexample): with `chunk_size=4, overlap=2` the corpus
"ABCDEFGHIJ" is not chunked into the four claimed chunks — the loop
condition `start < len(text)` admits a fifth iteration at offset 8. -/
theorem chunk_scenario_cex :
    chunkText "ABCDEFGHIJ".toList 4 2 ≠
      ["ABCD".toList, "CDEF".toList, "EFGH".toList, "GHIJ".toList] := by decide

unseal chunkFrom in
/-- C2 (amended): the chunker produces exactly the five chunks
"ABCD", "CDEF", "EFGH", "GHIJ", "IJ", in this order. -/
theorem chunk_scenario_amended :
    chunkText "ABCDEFGHIJ".toList 4 2 =
      ["ABCD".toList, "CDEF".toList, "EFGH".toList, "GHIJ".toList, "IJ".toList] := rfl

unseal List.merge List.mergeSort in
/-- C4 (counterexample): on a populated state, `retrieve("", topK=4)`
does not fail with InvalidArgument: the empty question is passed to the
embedding model (one encode call on `[""]`) and the call returns a
normal result. -/
theorem no_invalid_argument_cex :
    (ask sampleCollabs sampleEnv oldState { question := [], top_k := some 4 }).out
      = .ok ["OLD".toList]
    ∧ (ask sampleCollabs sampleEnv oldState { question := [], top_k := some 4 }).embedCalls
      = [[[]]] :=
  ⟨by decide, by decide⟩

/-- C4 (amended): `/ask` performs no validation of the question or of
`topK`: on every populated state, every request — empty question
included, any `topK` value — reaches the embedding model, which is
invoked exactly once on the question. -/
theorem ask_no_validation (c : Collabs) (env : Env) (s : ServerState)
    (m : Model) (idx : Index) (emb : List Vec) (q : Doc) (tk : Option Int)
    (hM : s.MODEL = some m) (hI : s.INDEX = some idx) (hE : s.EMB = some emb) :
    (ask c env s { question := q, top_k := tk }).embedCalls = [[q]] := by
  unfold ask
  rw [hM, hI, hE]
  repeat' split
  all_goals rfl

theorem ask_no_validation_witness :
    (ask sampleCollabs sampleEnv oldState { question := [], top_k := some (-3) }).embedCalls
      = [[[]]] :=
  ask_no_validation sampleCollabs sampleEnv oldState ⟨"old-model"⟩ ⟨[[3, 1]]⟩ [[3, 1]]
    [] (some (-3)) rfl rfl rfl

/-- C9: a retrieval call leaves the whole module state — `MODEL`,
`INDEX`, `CHUNKS`, `EMB`, the prompt — exactly as it found it, and its
only interaction with the embedding model is at most one encode call,
on the question itself. -/
theorem retrieval_frame (c : Collabs) (env : Env) (s : ServerState) (req : AskRequest) :
    (ask c env s req).state = s
    ∧ ((ask c env s req).embedCalls = [] ∨ (ask c env s req).embedCalls = [[req.question]]) :=
  ⟨ask_state_eq c env s req, ask_embedCalls c env s req⟩

/-- Every character offset from `start` on is inside some span emitted
by the chunking loop started at `start` (valid parameters). -/
theorem coverage_aux (len : Nat) (cs ov : Int) (hcs : 0 < cs) (hov : 0 ≤ ov)
    (i start : Nat) (hsi : start ≤ i) (hil : i < len) :
    ∃ p ∈ chunkSpansFrom len cs ov start, p.1 ≤ i ∧ i < p.2 := by
  have hlt : start < len := lt_of_le_of_lt hsi hil
  rw [chunkSpansFrom]
  rw [dif_pos hlt]
  by_cases hi2 : (i : Int) < (start : Int) + cs
  · refine ⟨(start, (min ((start : Int) + cs) (len : Int)).toNat),
      List.mem_cons_self _ _, hsi, ?_⟩
    omega
  · have hstep : (chunkStep cs ov : Int) ≤ cs := chunkStep_le cs ov hcs hov
    have hsi2 : start + chunkStep cs ov ≤ i := by omega
    obtain ⟨p, hp, hp2⟩ := coverage_aux len cs ov hcs hov i (start + chunkStep cs ov) hsi2 hil
    exact ⟨p, List.mem_cons_of_mem _ hp, hp2⟩
termination_by len - start
decreasing_by
  have h1 := chunkStep_pos cs ov
  omega

/-- Every span emitted by the loop started at `start` starts at or
after `start`. -/
theorem spans_fst_ge (len : Nat) (cs ov : Int) (start : Nat) :
    ∀ p ∈ chunkSpansFrom len cs ov start, start ≤ p.1 := by
  intro p hp
  rw [chunkSpansFrom] at hp
  by_cases hlt : start < len
  · rw [dif_pos hlt] at hp
    rcases List.mem_cons.mp hp with h | h
    · rw [h]
    · have := spans_fst_ge len cs ov (start + chunkStep cs ov) p h
      have h1 := chunkStep_pos cs ov
      omega
  · rw [dif_neg hlt] at hp
    exact absurd hp (List.not_mem_nil p)
termination_by len - start
decreasing_by
  have h1 := chunkStep_pos cs ov
  omega

/-- Chunk start offsets are strictly increasing in the source. -/
theorem spans_mono (len : Nat) (cs ov : Int) (start : Nat) :
    List.Pairwise (fun p q => p.1 < q.1) (chunkSpansFrom len cs ov start) := by
  rw [chunkSpansFrom]
  by_cases hlt : start < len
  · rw [dif_pos hlt]
    refine List.Pairwise.cons ?_ (spans_mono len cs ov (start + chunkStep cs ov))
    intro p hp
    have := spans_fst_ge len cs ov (start + chunkStep cs ov) p hp
    have h1 := chunkStep_pos cs ov
    omega
  · rw [dif_neg hlt]
    exact List.Pairwise.nil
termination_by len - start
decreasing_by
  have h1 := chunkStep_pos cs ov
  omega

/-- For non-negative `chunk_size`, each chunk emitted by the loop is
exactly the text slice of its span. -/
theorem chunkFrom_eq_map_spans (text : Doc) (cs ov : Int) (hcs : 0 ≤ cs) (start : Nat) :
    chunkFrom text cs ov start =
      (chunkSpansFrom text.length cs ov start).map (fun p => (text.take p.2).drop p.1) := by
  rw [chunkFrom, chunkSpansFrom]
  by_cases hlt : start < text.length
  · rw [dif_pos hlt, dif_pos hlt, List.map_cons]
    congr 1
    · unfold pySlice
      have hnn : ¬ (min ((start : Int) + cs) ((text.length : Int)) < 0) := by omega
      rw [if_neg hnn]
      have hmm : min (min ((start : Int) + cs) ((text.length : Int))) ((text.length : Int))
          = min ((start : Int) + cs) ((text.length : Int)) := by omega
      rw [hmm]
    · exact chunkFrom_eq_map_spans text cs ov hcs (start + chunkStep cs ov)
  · rw [dif_neg hlt, dif_neg hlt, List.map_nil]
termination_by text.length - start
decreasing_by
  have h1 := chunkStep_pos cs ov
  omega

/-- When the loop step is clamped to 1, one chunk is emitted per
remaining character offset. -/
theorem chunkFrom_length_step1 (text : Doc) (cs ov : Int) (h1 : chunkStep cs ov = 1)
    (start : Nat) : (chunkFrom text cs ov start).length = text.length - start := by
  rw [chunkFrom]
  by_cases hlt : start < text.length
  · rw [dif_pos hlt, List.length_cons, h1, chunkFrom_length_step1 text cs ov h1 (start + 1)]
    omega
  · rw [dif_neg hlt, List.length_nil]
    omega
termination_by text.length - start
decreasing_by omega

/-- C3: for every corpus text and valid parameters
(`chunk_size > 0`, `0 ≤ overlap < chunk_size`) the chunk spans cover
every character offset of the text, the chunk start offsets are
strictly increasing, and the produced chunks are exactly the text
slices of those spans. -/
theorem chunker_coverage (text : Doc) (cs ov : Int)
    (hcs : 0 < cs) (hov : 0 ≤ ov) (_hlt : ov < cs) :
    (∀ i, i < text.length → ∃ p ∈ chunkSpansFrom text.length cs ov 0, p.1 ≤ i ∧ i < p.2)
    ∧ List.Pairwise (fun p q => p.1 < q.1) (chunkSpansFrom text.length cs ov 0)
    ∧ chunkText text cs ov =
        (chunkSpansFrom text.length cs ov 0).map (fun p => (text.take p.2).drop p.1) :=
  ⟨fun i hi => coverage_aux text.length cs ov hcs hov i 0 (Nat.zero_le i) hi,
   spans_mono text.length cs ov 0,
   chunkFrom_eq_map_spans text cs ov (le_of_lt hcs) 0⟩

theorem chunker_coverage_witness :
    (∀ i, i < "ABCDE".toList.length →
      ∃ p ∈ chunkSpansFrom "ABCDE".toList.length 3 1 0, p.1 ≤ i ∧ i < p.2)
    ∧ List.Pairwise (fun p q => p.1 < q.1) (chunkSpansFrom "ABCDE".toList.length 3 1 0)
    ∧ chunkText "ABCDE".toList 3 1 =
        (chunkSpansFrom "ABCDE".toList.length 3 1 0).map
          (fun p => ("ABCDE".toList.take p.2).drop p.1) :=
  chunker_coverage "ABCDE".toList 3 1 (by decide) (by decide) (by decide)

unseal chunkFrom in
/-- C6 (counterexample): `load_chunks` with `chunk_size=2, overlap=3`
(violating `overlap < chunk_size`) does not fail with InvalidConfig: on
the corpus "AB" it produces the chunks ["AB","B"], and a reload with
these parameters succeeds and replaces the prior chunks instead of
aborting. -/
theorem no_invalid_config_cex :
    chunkText "AB".toList 2 3 = ["AB".toList, "B".toList]
    ∧ (reload_state tinyCollabs badParamEnv oldState).1 = .ok 2
    ∧ (reload_state tinyCollabs badParamEnv oldState).2.CHUNKS = ["AB".toList, "B".toList] :=
  ⟨rfl, rfl, rfl⟩

/-- C6 (amended): the chunker performs no parameter validation: with
`overlap ≥ chunk_size > 0` the loop step `max(1, chunk_size - overlap)`
is clamped to 1, and the call produces one chunk per character offset
(each chunk still the slice of its span) instead of failing; a reload
with such parameters proceeds normally. -/
theorem chunker_no_validation (text : Doc) (cs ov : Int) (hcs : 0 < cs) (hge : cs ≤ ov) :
    chunkStep cs ov = 1
    ∧ (chunkText text cs ov).length = text.length
    ∧ chunkText text cs ov =
        (chunkSpansFrom text.length cs ov 0).map (fun p => (text.take p.2).drop p.1) := by
  have h1 : chunkStep cs ov = 1 := by unfold chunkStep; omega
  refine ⟨h1, ?_, chunkFrom_eq_map_spans text cs ov (le_of_lt hcs) 0⟩
  rw [chunkText, chunkFrom_length_step1 text cs ov h1 0]
  omega

theorem chunker_no_validation_witness :
    chunkStep 2 3 = 1
    ∧ (chunkText "AB".toList 2 3).length = "AB".toList.length
    ∧ chunkText "AB".toList 2 3 =
        (chunkSpansFrom "AB".toList.length 2 3 0).map
          (fun p => ("AB".toList.take p.2).drop p.1) :=
  chunker_no_validation "AB".toList 2 3 (by decide) (by decide)

/-- C8: after every successful reload the chunk list, the embedding
matrix and the index vectors are aligned: the embeddings are exactly
the encoding of the chunk list (hence entry `i` embeds chunk `i`), the
index stores exactly the embedding rows in order, all three have the
same length (given the embedding model's same-length contract, spec
section 4.2), and every subsequent retrieval leaves this state intact. -/
theorem reload_alignment (c : Collabs) (env : Env) (s s2 : ServerState) (n : Nat)
    (henc : ∀ m ts vs, c.encode m ts = .ok vs → vs.length = ts.length)
    (h : reload_state c env s = (.ok n, s2)) :
    ∃ m emb idx,
      s2.MODEL = some m ∧ s2.EMB = some emb ∧ s2.INDEX = some idx
      ∧ c.encode m s2.CHUNKS = .ok emb
      ∧ emb.length = s2.CHUNKS.length
      ∧ idx.vectors = emb
      ∧ ∀ c2 env2 req, (ask c2 env2 s2 req).state = s2 := by
  simp only [reload_state] at h
  cases hrc : c.readCorpus env.knowledge_path with
  | error e1 => simp [hrc] at h
  | ok text =>
    simp only [hrc] at h
    cases hgm : c.getModel env.embedding_model with
    | error e1 => simp [hgm] at h
    | ok m =>
      simp only [hgm] at h
      cases hen : c.encode m (chunkText text env.chunk_size env.overlap) with
      | error e1 => simp [hen] at h
      | ok emb =>
        simp only [hen] at h
        cases hb : build_index emb with
        | error e1 => simp [hb] at h
        | ok idxr =>
          simp only [hb] at h
          injection h with h1 h2
          subst h2
          refine ⟨m, emb, idxr, rfl, rfl, rfl, hen, henc m _ _ hen, ?_, ?_⟩
          · unfold build_index at hb
            split at hb
            · exact Except.noConfusion hb
            · injection hb with hb
              rw [← hb]
          · intro c2 env2 req
            exact ask_state_eq c2 env2 _ req

unseal chunkFrom in
theorem reload_alignment_witness :
    ∃ m emb idx,
      (reload_state sampleCollabs sampleEnv initState).2.MODEL = some m
      ∧ (reload_state sampleCollabs sampleEnv initState).2.EMB = some emb
      ∧ (reload_state sampleCollabs sampleEnv initState).2.INDEX = some idx
      ∧ sampleCollabs.encode m (reload_state sampleCollabs sampleEnv initState).2.CHUNKS
          = .ok emb
      ∧ emb.length = (reload_state sampleCollabs sampleEnv initState).2.CHUNKS.length
      ∧ idx.vectors = emb
      ∧ ∀ c2 env2 req,
          (ask c2 env2 (reload_state sampleCollabs sampleEnv initState).2 req).state
            = (reload_state sampleCollabs sampleEnv initState).2 :=
  reload_alignment sampleCollabs sampleEnv initState
    (reload_state sampleCollabs sampleEnv initState).2 5
    (fun m ts vs hv => by injection hv with hv; rw [← hv]; simp)
    (by rfl)

theorem scoreOrder_trans (a b c : Int × Nat)
    (h1 : scoreOrder a b) (h2 : scoreOrder b c) : scoreOrder a c := by
  simp only [scoreOrder, decide_eq_true_eq] at h1 h2 ⊢
  omega

theorem scoreOrder_total (a b : Int × Nat) : scoreOrder a b || scoreOrder b a := by
  simp only [scoreOrder, Bool.or_eq_true, decide_eq_true_eq]
  omega

/-- The stored positions of the scored list are exactly `0, …, n-1`. -/
theorem scored_snd (idx : Index) (q : Vec) :
    (scored idx q).map Prod.snd = List.range idx.vectors.length := by
  simp only [scored, List.map_map]
  have hc : (Prod.snd ∘ fun i => (dot q (idx.vectors.getD i []), i)) = id := rfl
  rw [hc, List.map_id]

theorem scored_snd_pairwise (idx : Index) (q : Vec) :
    (scored idx q).Pairwise (fun a b => a.2 ≠ b.2) := by
  have h := List.nodup_range idx.vectors.length
  rw [← scored_snd idx q] at h
  exact (List.pairwise_map.mp h)

theorem sorted_snd_pairwise (idx : Index) (q : Vec) :
    ((scored idx q).mergeSort scoreOrder).Pairwise (fun a b => a.2 ≠ b.2) :=
  ((List.mergeSort_perm (scored idx q) scoreOrder).pairwise_iff
    (fun h hh => h hh.symm)).mpr (scored_snd_pairwise idx q)

/-- Search results are strictly ordered: descending score, ties broken
by ascending stored position. -/
theorem searchValid_rank (idx : Index) (q : Vec) (k : Nat) :
    (searchValid idx q k).Pairwise rank := by
  have hsorted : ((scored idx q).mergeSort scoreOrder).Pairwise (fun a b => scoreOrder a b) :=
    List.sorted_mergeSort scoreOrder_trans scoreOrder_total (scored idx q)
  have hne := sorted_snd_pairwise idx q
  have hcomb := hsorted.and hne
  have hrank : ((scored idx q).mergeSort scoreOrder).Pairwise rank := by
    refine hcomb.imp ?_
    intro a b hab
    obtain ⟨h1, h2⟩ := hab
    simp only [scoreOrder, decide_eq_true_eq] at h1
    unfold rank
    omega
  exact hrank.sublist (List.take_sublist k _)

/-- The number of valid results is `k` clamped to the stored count. -/
theorem searchValid_length (idx : Index) (q : Vec) (k : Nat) :
    (searchValid idx q k).length = min k idx.vectors.length := by
  simp [searchValid, scored]

/-- Every returned pair is the true inner-product score of a stored
vector at its stored position. -/
theorem searchValid_mem (idx : Index) (q : Vec) (k : Nat) :
    ∀ p ∈ searchValid idx q k,
      p.2 < idx.vectors.length ∧ p.1 = dot q (idx.vectors.getD p.2 []) := by
  intro p hp
  have hL : p ∈ (scored idx q).mergeSort scoreOrder :=
    List.mem_of_mem_take hp
  rw [List.mem_mergeSort] at hL
  simp only [scored, List.mem_map, List.mem_range] at hL
  obtain ⟨i, hi, rfl⟩ := hL
  exact ⟨hi, rfl⟩

/-- Exhaustiveness and top-k optimality: every stored vector is either
among the returned results or ranks no better than each of them. -/
theorem searchValid_topk (idx : Index) (q : Vec) (k : Nat) :
    ∀ j, j < idx.vectors.length →
      (dot q (idx.vectors.getD j []), j) ∈ searchValid idx q k
      ∨ ∀ p ∈ searchValid idx q k, scoreOrder p (dot q (idx.vectors.getD j []), j) := by
  intro j hj
  have hx : (dot q (idx.vectors.getD j []), j) ∈ (scored idx q).mergeSort scoreOrder := by
    rw [List.mem_mergeSort]
    simp only [scored, List.mem_map, List.mem_range]
    exact ⟨j, hj, rfl⟩
  have hsplit := List.take_append_drop k ((scored idx q).mergeSort scoreOrder)
  rw [← hsplit] at hx
  rcases List.mem_append.mp hx with hleft | hright
  · exact Or.inl hleft
  · right
    intro p hp
    have hsorted : ((scored idx q).mergeSort scoreOrder).Pairwise (fun a b => scoreOrder a b) :=
      List.sorted_mergeSort scoreOrder_trans scoreOrder_total (scored idx q)
    rw [← hsplit] at hsorted
    exact (List.pairwise_append.mp hsorted).2.2 p hp _ hright

theorem searchValid_empty (q : Vec) (k : Nat) : searchValid ⟨[]⟩ q k = [] := by
  simp [searchValid, scored]

/-- An empty index yields a row of sentinel positions, not an error. -/
theorem search_empty_sentinels (q : Vec) (k : Nat) :
    (search ⟨[]⟩ q k).2 = List.replicate k (-1) := by
  simp [search, searchValid_empty]

/-- The label row returned by `search` always has exactly `k` entries
(valid results padded with sentinels). -/
theorem search_row_length (idx : Index) (q : Vec) (k : Nat) :
    ((search idx q k).2).length = k := by
  have h := searchValid_length idx q k
  simp only [search, List.length_append, List.length_map, List.length_replicate, h]
  omega

theorem mapM_except_ok_length {α β ε : Type} (f : α → Except ε β) :
    ∀ (l : List α) (l2 : List β), l.mapM f = .ok l2 → l2.length = l.length
  | [], l2, h => by
    simp only [List.mapM_nil] at h
    injection h with h
    rw [← h]
    rfl
  | a :: l, l2, h => by
    rw [List.mapM_cons] at h
    cases hf : f a with
    | error e => rw [hf] at h; exact Except.noConfusion h
    | ok b =>
      rw [hf] at h
      cases hm : l.mapM f with
      | error e => rw [hm] at h; exact Except.noConfusion h
      | ok bs =>
        rw [hm] at h
        simp only [bind_pure_comp, map_pure] at h
        injection h with h
        rw [← h, List.length_cons, mapM_except_ok_length f l bs hm]
        rfl

/-- Dropping sentinels can only shorten the row. -/
theorem selectChunks_ok_length (chunks : List Doc) (row : List Int) (out : List Doc)
    (h : selectChunks chunks row = .ok out) : out.length ≤ row.length := by
  unfold selectChunks at h
  have := mapM_except_ok_length _ _ _ h
  rw [this]
  exact le_trans (List.length_filter_le _ _) (le_refl _)

/-- A successful `/ask` returns at most `top_k` passages. -/
theorem ask_ok_length (c : Collabs) (env : Env) (s : ServerState) (req : AskRequest)
    (sel : List Doc) (hout : (ask c env s req).out = .ok sel) :
    sel.length ≤ (effective_top_k req.top_k env.top_k).toNat := by
  unfold ask at hout
  cases hM : s.MODEL with
  | none => rw [hM] at hout; exact Except.noConfusion hout
  | some m =>
    rw [hM] at hout
    cases hI : s.INDEX with
    | none => rw [hI] at hout; exact Except.noConfusion hout
    | some idx =>
      rw [hI] at hout
      cases hE : s.EMB with
      | none => rw [hE] at hout; exact Except.noConfusion hout
      | some emb =>
        rw [hE] at hout
        cases he : c.encode m [req.question] with
        | error e => simp only [he] at hout; exact Except.noConfusion hout
        | ok qemb =>
          simp only [he] at hout
          cases hsel : selectChunks s.CHUNKS
              (search idx (qemb.headD [])
                (effective_top_k req.top_k env.top_k).toNat).2 with
          | error e => simp only [hsel] at hout; exact Except.noConfusion hout
          | ok sel2 =>
            simp only [hsel] at hout
            injection hout with hout
            rw [← hout]
            have h1 := selectChunks_ok_length _ _ _ hsel
            rw [search_row_length] at h1
            exact h1

/-- C7: flat search semantics — every stored vector is scored against
the query; results are the top `min k n` pairs in strictly descending
score order with ties broken by lowest stored position; each returned
pair is the true score of its stored vector, and every vector not
returned ranks no better than any returned one; an empty index yields
no valid results, only a row of `-1` sentinels, with no error; and the
retrieval path drops sentinel positions so a successful `/ask` returns
at most `top_k` passages. -/
theorem flat_search_spec (idx : Index) (q : Vec) (k : Nat) :
    (searchValid idx q k).length = min k idx.vectors.length
    ∧ (searchValid idx q k).Pairwise rank
    ∧ (∀ p ∈ searchValid idx q k,
        p.2 < idx.vectors.length ∧ p.1 = dot q (idx.vectors.getD p.2 []))
    ∧ (∀ j, j < idx.vectors.length →
        (dot q (idx.vectors.getD j []), j) ∈ searchValid idx q k
        ∨ ∀ p ∈ searchValid idx q k, scoreOrder p (dot q (idx.vectors.getD j []), j))
    ∧ searchValid ⟨[]⟩ q k = []
    ∧ (search ⟨[]⟩ q k).2 = List.replicate k (-1)
    ∧ (∀ c2 env2 s2 req sel, (ask c2 env2 s2 req).out = .ok sel →
        sel.length ≤ (effective_top_k req.top_k env2.top_k).toNat) :=
  ⟨searchValid_length idx q k, searchValid_rank idx q k, searchValid_mem idx q k,
   searchValid_topk idx q k, searchValid_empty q k, search_empty_sentinels q k,
   fun c2 env2 s2 req sel h => ask_ok_length c2 env2 s2 req sel h⟩

theorem flat_search_spec_witness :
    (searchValid ⟨[[2], [5]]⟩ [3] 1).length = min 1 (⟨[[2], [5]]⟩ : Index).vectors.length
    ∧ (searchValid ⟨[[2], [5]]⟩ [3] 1).Pairwise rank
    ∧ (∀ p ∈ searchValid ⟨[[2], [5]]⟩ [3] 1,
        p.2 < (⟨[[2], [5]]⟩ : Index).vectors.length
        ∧ p.1 = dot [3] ((⟨[[2], [5]]⟩ : Index).vectors.getD p.2 []))
    ∧ (∀ j, j < (⟨[[2], [5]]⟩ : Index).vectors.length →
        (dot [3] ((⟨[[2], [5]]⟩ : Index).vectors.getD j []), j) ∈ searchValid ⟨[[2], [5]]⟩ [3] 1
        ∨ ∀ p ∈ searchValid ⟨[[2], [5]]⟩ [3] 1,
            scoreOrder p (dot [3] ((⟨[[2], [5]]⟩ : Index).vectors.getD j []), j))
    ∧ searchValid ⟨[]⟩ [3] 1 = []
    ∧ (search ⟨[]⟩ [3] 1).2 = List.replicate 1 (-1)
    ∧ (∀ c2 env2 s2 req sel, (ask c2 env2 s2 req).out = .ok sel →
        sel.length ≤ (effective_top_k req.top_k env2.top_k).toNat) :=
  flat_search_spec ⟨[[2], [5]]⟩ [3] 1
